import Mathlib

/-!
Shallow embedding of the `poc-event-form` core subsystems, checked against the
repository's natural-language specification.

Embedded source files:
* `src/main.tsx` (second document): manual Zod schemas and `validateEvent`
* `src/lib/validation-with-orval.ts`: `validateSectionWithOrval` and the hybrid config
* `src/unnamed/part_013` (validation-dynamic): `DynamicValidator.validateEvent`
* `src/mocks/handlers.ts`: mock remote store (`applyUpdates`, PATCH, publish, `validateEvent`)
* `src/hooks/useAtomicField.ts` and `src/hooks/useAtomicPersonField.ts`: debounced
  optimistic field-sync pipeline (`setNestedValue`, `debouncedSave`, mutation callbacks)

JavaScript runtime values are embedded as the `Json` inductive (with `undef`
distinct from `null`); JS objects become ordered association lists, matching JS
object key-insertion order.  Numbers are embedded as integers (every numeric value
appearing in the embedded code paths is integral).
-/

namespace EventForm

/-- A JavaScript runtime value (JSON extended with `undefined`). -/
inductive Json where
  | null
  | undef
  | bool (b : Bool)
  | num (n : Int)
  | str (s : String)
  | arr (elems : List Json)
  | obj (fields : List (String × Json))
  deriving Repr

-- Structural equality of embedded JS values (used to embed `===` on the
-- primitive values that flow through the field-sync pipeline).
mutual
def jeq : Json → Json → Bool
  | .null, .null => true
  | .undef, .undef => true
  | .bool a, .bool b => a == b
  | .num a, .num b => a == b
  | .str a, .str b => a == b
  | .arr a, .arr b => jeqList a b
  | .obj a, .obj b => jeqFields a b
  | _, _ => false
def jeqList : List Json → List Json → Bool
  | [], [] => true
  | a :: as, b :: bs => jeq a b && jeqList as bs
  | _, _ => false
def jeqFields : List (String × Json) → List (String × Json) → Bool
  | [], [] => true
  | (k, a) :: as, (l, b) :: bs => k == l && jeq a b && jeqFields as bs
  | _, _ => false
end

/-- JS truthiness of an embedded value. -/
def Json.truthy : Json → Bool
  | .null => false
  | .undef => false
  | .bool b => b
  | .num n => n != 0
  | .str s => s != ""
  | .arr _ => true
  | .obj _ => true

/-- Property read `obj[key]` on an object's field list. -/
def lookupField : List (String × Json) → String → Option Json
  | [], _ => none
  | (k, v) :: rest, key => if k = key then some v else lookupField rest key

/-- Property write `obj[key] = v`: replaces an existing binding in place,
otherwise appends (JS key-insertion order). -/
def setKey : List (String × Json) → String → Json → List (String × Json)
  | [], key, v => [(key, v)]
  | (k, w) :: rest, key, v => if k = key then (key, v) :: rest else (k, w) :: setKey rest key v

/-- Property read on an arbitrary value: `none` models `undefined`. -/
def Json.getField : Json → String → Option Json
  | .obj fs, k => lookupField fs k
  | _, _ => none

/-- `String.trim` as JS `.trim()` (structurally recursive, unlike core `String.trim`). -/
def jsTrim (s : String) : String :=
  ⟨((s.data.dropWhile Char.isWhitespace).reverse.dropWhile Char.isWhitespace).reverse⟩

/-- `.toLowerCase()`. -/
def lowerStr (s : String) : String := ⟨s.data.map Char.toLower⟩

def splitDotAux : List Char → List Char → List String
  | [], acc => [⟨acc.reverse⟩]
  | c :: rest, acc =>
      if c = '.' then ⟨acc.reverse⟩ :: splitDotAux rest [] else splitDotAux rest (c :: acc)

/-- `path.split('.')`. -/
def splitDot (s : String) : List String := splitDotAux s.data []

/-- `str.slice(0, -1)`. -/
def sliceDropLast (s : String) : String := ⟨s.data.dropLast⟩

/-- One Zod issue: a path into the document and a message. -/
structure Issue where
  path : List String
  message : String
  deriving Repr

/-- The `ValidationResult` shape shared by `src/main.tsx`,
`src/lib/validation-with-orval.ts` and the dynamic validator (part_013):
`{isValid, canPublish, errors, fieldErrors, sectionErrors}`.
Records are ordered association lists. -/
structure ValidationResult where
  isValid : Bool
  canPublish : Bool
  errors : List (String × List String)
  fieldErrors : List (String × String)
  sectionErrors : List (String × List String)
  deriving Repr

/-- The freshly initialised result object each validator starts from. -/
def emptyResult : ValidationResult :=
  { isValid := false, canPublish := false, errors := [], fieldErrors := [], sectionErrors := [] }

/-- `if (!m[k]) m[k] = []; m[k].push(msg)` on a `Record<string, string[]>`. -/
def pushMsg : List (String × List String) → String → String → List (String × List String)
  | [], key, m => [(key, [m])]
  | (k, ms) :: rest, key, m =>
      if k = key then (k, ms ++ [m]) :: rest else (k, ms) :: pushMsg rest key m

/-- `m[k] = msg` on a `Record<string, string>`. -/
def setStr : List (String × String) → String → String → List (String × String)
  | [], key, m => [(key, m)]
  | (k, w) :: rest, key, m => if k = key then (k, m) :: rest else (k, w) :: setStr rest key m

/-- `m[k] = msgs` on a `Record<string, string[]>`. -/
def setMsgs : List (String × List String) → String → List String → List (String × List String)
  | [], key, ms => [(key, ms)]
  | (k, w) :: rest, key, ms => if k = key then (k, ms) :: rest else (k, w) :: setMsgs rest key ms

/-- The shared Zod-issue processing loop of the `catch` blocks in
`validateEvent` (src/main.tsx lines 215-238), `validateEventWithOrval` and
`DynamicValidator.validateEvent` (part_013 lines 229-252): field-level issues go
to `fieldErrors` (or `sectionErrors` when the path starts with `sections`), and
every issue is pushed onto `errors` under its joined path. -/
def applyIssue (r : ValidationResult) (iss : Issue) : ValidationResult :=
  let pathStr := String.intercalate "." iss.path
  let r1 :=
    if iss.path.length > 0 then
      if iss.path.head? = some "sections" then
        -- `err.path[1] as string`; a missing second element is JS `undefined`,
        -- which stringifies to the object key "undefined"
        let sectionName := (iss.path.get? 1).getD "undefined"
        { r with sectionErrors := pushMsg r.sectionErrors sectionName iss.message }
      else
        { r with fieldErrors := setStr r.fieldErrors pathStr iss.message }
    else r
  { r1 with errors := pushMsg r1.errors pathStr iss.message }

def processIssues (issues : List Issue) : ValidationResult :=
  issues.foldl applyIssue emptyResult

/-! ### Zod field checkers

Each checker embeds one Zod combinator from the manual schemas in
`src/main.tsx` (lines 69-146), returning the list of issues it reports
(at most one per field).  Issue messages not customised in the source keep
Zod's stock wording (`Required`, etc.); no claim depends on those. -/

/-- `z.string()` on a required object key. -/
def reqStr (fs : List (String × Json)) (pre : List String) (key : String) : List Issue :=
  match lookupField fs key with
  | some (.str _) => []
  | some .undef => [⟨pre ++ [key], "Required"⟩]
  | some _ => [⟨pre ++ [key], "Expected string"⟩]
  | none => [⟨pre ++ [key], "Required"⟩]

/-- `z.string().min(1, msg)`. -/
def reqStrMin1 (fs : List (String × Json)) (pre : List String) (key msg : String) : List Issue :=
  match lookupField fs key with
  | some (.str s) => if s = "" then [⟨pre ++ [key], msg⟩] else []
  | some .undef => [⟨pre ++ [key], "Required"⟩]
  | some _ => [⟨pre ++ [key], "Expected string"⟩]
  | none => [⟨pre ++ [key], "Required"⟩]

/-- `z.string().optional()`. -/
def optStr (fs : List (String × Json)) (pre : List String) (key : String) : List Issue :=
  match lookupField fs key with
  | some (.str _) => []
  | some .undef => []
  | some _ => [⟨pre ++ [key], "Expected string"⟩]
  | none => []

/-- `z.enum([...])`. -/
def enumStr (fs : List (String × Json)) (pre : List String) (key : String)
    (vals : List String) : List Issue :=
  match lookupField fs key with
  | some (.str s) => if vals.contains s then [] else [⟨pre ++ [key], "Invalid enum value"⟩]
  | some .undef => [⟨pre ++ [key], "Required"⟩]
  | some _ => [⟨pre ++ [key], "Invalid enum value"⟩]
  | none => [⟨pre ++ [key], "Required"⟩]

/-- `z.number().int().min(0).max(150).optional().or(z.literal(''))` — the `age`
field.  A value failing every branch of the union gets one issue. -/
def ageCheck (fs : List (String × Json)) (pre : List String) (key : String) : List Issue :=
  match lookupField fs key with
  | none => []
  | some .undef => []
  | some (.str s) => if s = "" then [] else [⟨pre ++ [key], "Invalid input"⟩]
  | some (.num n) => if 0 ≤ n ∧ n ≤ 150 then [] else [⟨pre ++ [key], "Invalid input"⟩]
  | some _ => [⟨pre ++ [key], "Invalid input"⟩]

/-- `z.number().int().min(lo, msg)` on a required key (the `int()` side condition
is inherent to the integer embedding of numbers). -/
def reqIntMin (fs : List (String × Json)) (pre : List String) (key : String) (lo : Int)
    (msg : String) : List Issue :=
  match lookupField fs key with
  | some (.num n) => if n < lo then [⟨pre ++ [key], msg⟩] else []
  | some .undef => [⟨pre ++ [key], "Required"⟩]
  | some _ => [⟨pre ++ [key], "Expected number"⟩]
  | none => [⟨pre ++ [key], "Required"⟩]

/-- `personSchema` (src/main.tsx lines 69-74). -/
def personIssues (pre : List String) (j : Json) : List Issue :=
  match j with
  | .obj fs =>
      reqStr fs pre "id"
        ++ reqStrMin1 fs pre "name" "Name is required"
        ++ enumStr fs pre "role" ["suspect", "victim", "witness", "employee"]
        ++ ageCheck fs pre "age"
  | _ => [⟨pre, "Expected object"⟩]

/-- `vehicleSchema` (src/main.tsx lines 76-81). -/
def vehicleIssues (pre : List String) (j : Json) : List Issue :=
  match j with
  | .obj fs =>
      reqStr fs pre "id"
        ++ reqStrMin1 fs pre "make" "Make is required"
        ++ reqStrMin1 fs pre "model" "Model is required"
        ++ optStr fs pre "licensePlate"
  | _ => [⟨pre, "Expected object"⟩]

/-- `productSchema` (src/main.tsx lines 83-89). -/
def productIssues (pre : List String) (j : Json) : List Issue :=
  match j with
  | .obj fs =>
      reqStr fs pre "id"
        ++ reqStrMin1 fs pre "name" "Product name is required"
        ++ optStr fs pre "sku"
        ++ reqIntMin fs pre "quantity" 1 "Quantity must be at least 1"
        ++ reqIntMin fs pre "unitValue" 0 "Unit value must be non-negative"
  | _ => [⟨pre, "Expected object"⟩]

/-- `baseEventMetadataSchema` (src/main.tsx lines 92-97). -/
def metadataIssues (pre : List String) (j : Json) : List Issue :=
  match j with
  | .obj fs =>
      reqStrMin1 fs pre "title" "Title is required"
        ++ optStr fs pre "description"
        ++ enumStr fs pre "priority" ["low", "medium", "high", "critical"]
        ++ reqStrMin1 fs pre "occurredAt" "Occurrence date/time is required"
  | _ => [⟨pre, "Expected object"⟩]

/-- `z.array(item)` with an optional `.min(1, msg)` and optional `.optional()`.
Zod records the length issue, then the per-element issues (indices become path
segments). -/
def arrayIssues (itemIssues : List String → Json → List Issue) (pre : List String)
    (v : Option Json) (minOneMsg : Option String) (isOptional : Bool) : List Issue :=
  match v with
  | none => if isOptional then [] else [⟨pre, "Required"⟩]
  | some .undef => if isOptional then [] else [⟨pre, "Required"⟩]
  | some (.arr xs) =>
      (match minOneMsg with
        | some msg => if xs.length = 0 then [⟨pre, msg⟩] else []
        | none => []) ++
      (xs.enum.map (fun p => itemIssues (pre ++ [toString p.1]) p.2)).flatten
  | some _ => [⟨pre, "Expected array"⟩]

/-- The fields shared by all variants: `baseEventSchema` (src/main.tsx
lines 100-107) minus the `eventType` discriminator, which the discriminated
union has already matched. -/
def baseEventIssues (fs : List (String × Json)) : List Issue :=
  reqStr fs [] "id"
    ++ reqStr fs [] "organizationId"
    ++ reqStr fs [] "siteId"
    ++ enumStr fs [] "status" ["draft", "published"]
    ++ (match lookupField fs "metadata" with
        | none => [⟨["metadata"], "Required"⟩]
        | some .undef => [⟨["metadata"], "Required"⟩]
        | some m => metadataIssues ["metadata"] m)

/-- `shopliftingEventSchema.sections` (src/main.tsx lines 110-117). -/
def shopliftingSectionsIssues (j : Json) : List Issue :=
  match j with
  | .obj sfs =>
      arrayIssues personIssues ["sections", "persons"] (lookupField sfs "persons")
          (some "At least one person is required for shoplifting incidents") false
        ++ arrayIssues productIssues ["sections", "products"] (lookupField sfs "products")
          (some "At least one product is required for shoplifting incidents") false
        ++ arrayIssues vehicleIssues ["sections", "vehicles"] (lookupField sfs "vehicles")
          none true
  | _ => [⟨["sections"], "Expected object"⟩]

/-- `accidentEventSchema.sections` (src/main.tsx lines 120-127). -/
def accidentSectionsIssues (j : Json) : List Issue :=
  match j with
  | .obj sfs =>
      arrayIssues personIssues ["sections", "persons"] (lookupField sfs "persons")
          (some "At least one person is required for accident reports") false
        ++ arrayIssues vehicleIssues ["sections", "vehicles"] (lookupField sfs "vehicles")
          none true
        ++ arrayIssues productIssues ["sections", "products"] (lookupField sfs "products")
          none true
  | _ => [⟨["sections"], "Expected object"⟩]

/-- `vandalismEventSchema.sections` (src/main.tsx lines 130-139); `evidence` is
`z.array(z.unknown()).min(1, msg).optional()`, so its items carry no checks. -/
def vandalismSectionsIssues (j : Json) : List Issue :=
  match j with
  | .obj sfs =>
      arrayIssues personIssues ["sections", "persons"] (lookupField sfs "persons") none true
        ++ arrayIssues vehicleIssues ["sections", "vehicles"] (lookupField sfs "vehicles")
          none true
        ++ arrayIssues productIssues ["sections", "products"] (lookupField sfs "products")
          none true
        ++ arrayIssues (fun _ _ => [])
          ["sections", "evidence"] (lookupField sfs "evidence")
          (some "At least one piece of evidence is required for vandalism reports") true
  | _ => [⟨["sections"], "Expected object"⟩]

/-- The required `sections` object key of each variant schema. -/
def requiredSectionsField (fs : List (String × Json)) (inner : Json → List Issue) : List Issue :=
  match lookupField fs "sections" with
  | none => [⟨["sections"], "Required"⟩]
  | some .undef => [⟨["sections"], "Required"⟩]
  | some s => inner s

/-- `eventSchema` — `z.discriminatedUnion('eventType', [...])`
(src/main.tsx lines 142-146).  An unmatched (or missing) discriminator yields
exactly one issue at path `eventType` (Zod's `invalid_union_discriminator`);
otherwise the matched variant schema validates the document. -/
def eventSchemaIssues (j : Json) : List Issue :=
  match j with
  | .obj fs =>
      match lookupField fs "eventType" with
      | some (.str s) =>
          if s = "shoplifting" then
            baseEventIssues fs ++ requiredSectionsField fs shopliftingSectionsIssues
          else if s = "accident" then
            baseEventIssues fs ++ requiredSectionsField fs accidentSectionsIssues
          else if s = "vandalism" then
            baseEventIssues fs ++ requiredSectionsField fs vandalismSectionsIssues
          else [⟨["eventType"], "Invalid discriminator value"⟩]
      | some _ => [⟨["eventType"], "Invalid discriminator value"⟩]
      | none => [⟨["eventType"], "Invalid discriminator value"⟩]
  | _ => [⟨[], "Expected object"⟩]

/-- `eventSchema.parse`: throws (`Except.error`) the collected issues when
nonempty. -/
def zodParseEvent (j : Json) : Except (List Issue) Unit :=
  match eventSchemaIssues j with
  | [] => .ok ()
  | issues => .error issues

/-- `validateEvent` (src/main.tsx lines 192-247).  The `Except` layer carries a
hypothetical uncaught runtime exception: the function's `try`/`catch` catches
every `ZodError` (and anything else via its `else` branch), so no branch below
produces `Except.error`. -/
def validateEventE (event : Json) : Except String ValidationResult :=
  if ¬ event.truthy then
    .ok { emptyResult with errors := [("event", ["Event data is required"])] }
  else
    match zodParseEvent event with
    | .ok _ => .ok { emptyResult with isValid := true, canPublish := true }
    | .error issues => .ok (processIssues issues)

/-! ### Dynamic validator (`DynamicValidator`, src/unnamed/part_013 lines 131-261) -/

/-- `SectionConfig` rows served by `GET /event-types/:eventType/config`
(src/mocks/handlers.ts lines 6-31). -/
structure SectionConfig where
  sectionId : String
  displayName : String
  required : Bool
  minimumEntries : Nat
  deriving Repr, DecidableEq

/-- `EventTypeConfig` as consumed by `DynamicValidator`. -/
structure EventTypeConfig where
  eventType : String
  displayName : String
  sections : List SectionConfig
  deriving Repr, DecidableEq

/-- Modelled from the spec: the structural schema `generatedEventSchema`
re-exports `getEventsEventIdResponse` from `src/generated/zod-schemas.ts`,
orval-generated code that is not present under src/.  Per spec section 4.5 the
structural pass checks the metadata fields (non-empty title, priority in its
enum, present occurredAt) and the field-level constraints of each contained
entity, and an unrecognized type discriminant yields a single top-level error;
cardinality minimums are not structural (they belong to the dynamic
`SectionConfig` pass).  The per-field checkers are shared with the manual
schemas of src/main.tsx, which state the same field constraints. -/
def generatedEventIssues (j : Json) : List Issue :=
  match j with
  | .obj fs =>
      match lookupField fs "eventType" with
      | some (.str s) =>
          if s = "shoplifting" ∨ s = "accident" ∨ s = "vandalism" then
            baseEventIssues fs ++
            (match lookupField fs "sections" with
              | none => []
              | some .undef => []
              | some (.obj sfs) =>
                  arrayIssues personIssues ["sections", "persons"]
                      (lookupField sfs "persons") none true
                    ++ arrayIssues vehicleIssues ["sections", "vehicles"]
                      (lookupField sfs "vehicles") none true
                    ++ arrayIssues productIssues ["sections", "products"]
                      (lookupField sfs "products") none true
              | some _ => [⟨["sections"], "Expected object"⟩])
          else [⟨["eventType"], "Invalid discriminator value"⟩]
      | some _ => [⟨["eventType"], "Invalid discriminator value"⟩]
      | none => [⟨["eventType"], "Invalid discriminator value"⟩]
  | _ => [⟨[], "Expected object"⟩]

/-- `generatedEventSchema.parse`: throws the collected issues when nonempty. -/
def generatedParseEvent (j : Json) : Except (List Issue) Unit :=
  match generatedEventIssues j with
  | [] => .ok ()
  | issues => .error issues

/-- The rules record produced by
`DynamicValidator.getSectionValidationRules` (part_013 lines 148-171). -/
structure SectionRules where
  required : Bool
  minimumEntries : Nat
  displayName : String
  deriving Repr, DecidableEq

def getSectionValidationRules (cfg : Option EventTypeConfig) (sectionId : String) :
    SectionRules :=
  match cfg with
  | none => ⟨false, 0, sectionId⟩
  | some c =>
      match c.sections.find? (fun s => s.sectionId == sectionId) with
      | none => ⟨false, 0, sectionId⟩
      | some s => ⟨s.required, s.minimumEntries, s.displayName⟩

/-- `(sections[sectionId] || []).length < min`.  A truthy non-array value has
`length === undefined` and `undefined < min` is `false`; a falsy value takes
the `|| []` branch. -/
def jsSectionLenLt (sectionsVal : Json) (sid : String) (min : Nat) : Bool :=
  match sectionsVal.getField sid with
  | some (.arr xs) => xs.length < min
  | some v => if v.truthy then false else 0 < min
  | none => 0 < min

/-- The cardinality error message (part_013 lines 209-211):
`rules.displayName?.toLowerCase() || sectionId.slice(0, -1)` — `displayName`
is a string after `getSectionValidationRules`, so the `||` fallback applies
only to the empty string. -/
def cardinalityMsg (rules : SectionRules) (sectionId : String) : String :=
  if rules.minimumEntries = 1 then
    "At least 1 " ++
      (if lowerStr rules.displayName = "" then sliceDropLast sectionId
       else lowerStr rules.displayName) ++ " is required"
  else
    "At least " ++ toString rules.minimumEntries ++ " " ++
      (if lowerStr rules.displayName = "" then sectionId
       else lowerStr rules.displayName) ++ " are required"

/-- One iteration of the cardinality loop (part_013 lines 199-217), threading
the `hasValidationErrors` flag. -/
def dynCardinalityStep (sectionsVal : Json) (cfg : EventTypeConfig)
    (acc : ValidationResult × Bool) (s : SectionConfig) : ValidationResult × Bool :=
  let (r, hasErr) := acc
  if s.sectionId = "" then (r, hasErr)
  else
    let rules := getSectionValidationRules (some cfg) s.sectionId
    if rules.required && jsSectionLenLt sectionsVal s.sectionId rules.minimumEntries then
      let msg := cardinalityMsg rules s.sectionId
      ({ r with
          sectionErrors := setMsgs r.sectionErrors s.sectionId [msg],
          errors := setMsgs r.errors ("sections." ++ s.sectionId) [msg] }, true)
    else (r, hasErr)

/-- `validateEventDynamic(event, eventTypeConfig?)` =
`new DynamicValidator(cfg).validateEvent(event)` (part_013 lines 176-261 and
375-378).  As with `validateEventE`, the `Except` layer would carry an uncaught
runtime exception; the `try`/`catch` catches everything. -/
def validateEventDynamicE (event : Json) (cfg : Option EventTypeConfig) :
    Except String ValidationResult :=
  if ¬ event.truthy then
    .ok { emptyResult with errors := [("event", ["Event data is required"])] }
  else
    match generatedParseEvent event with
    | .error issues => .ok (processIssues issues)
    | .ok _ =>
        match cfg, event.getField "sections" with
        | some c, some sv =>
            if sv.truthy then
              let st := c.sections.foldl (dynCardinalityStep sv c) (emptyResult, false)
              .ok { st.1 with isValid := !st.2, canPublish := !st.2 }
            else .ok { emptyResult with isValid := true, canPublish := true }
        | _, _ => .ok { emptyResult with isValid := true, canPublish := true }

/-! ### `validateSectionWithOrval` (src/lib/validation-with-orval.ts lines 170-216) -/

/-- One entry of `hybridEventTypeValidationConfig`
(src/lib/validation-with-orval.ts lines 86-109). -/
structure TypeValidationConfig where
  requiredSections : List String
  minimumEntries : List (String × Nat)
  deriving Repr, DecidableEq

def hybridEventTypeValidationConfig (t : String) : Option TypeValidationConfig :=
  if t = "shoplifting" then some ⟨["persons", "products"], [("persons", 1), ("products", 1)]⟩
  else if t = "accident" then some ⟨["persons"], [("persons", 1)]⟩
  else if t = "vandalism" then some ⟨["evidence"], [("evidence", 1)]⟩
  else none

def lookupNat : List (String × Nat) → String → Option Nat
  | [], _ => none
  | (k, n) :: rest, key => if k = key then some n else lookupNat rest key

/-- `hybridSectionSchemas[sectionName].parse(sectionData)`.  The item schemas
are the orval-generated entity schemas (generated code not under src/),
modelled from the spec's entity field constraints — shared with the manual
per-entity checkers; `evidence` is `z.array(z.any())` and unknown section names
have no schema, so neither yields issues. -/
def hybridSectionIssues (name : String) (data : List Json) : List Issue :=
  if name = "persons" then
    (data.enum.map (fun p => personIssues [toString p.1] p.2)).flatten
  else if name = "vehicles" then
    (data.enum.map (fun p => vehicleIssues [toString p.1] p.2)).flatten
  else if name = "products" then
    (data.enum.map (fun p => productIssues [toString p.1] p.2)).flatten
  else []

/-- The `catch` loop of `validateSectionWithOrval` (lines 201-213): paths are
prefixed with the section name; no `sections` special-casing here. -/
def applySectionIssue (name : String) (r : ValidationResult) (iss : Issue) : ValidationResult :=
  let path := name ++ "." ++ String.intercalate "." iss.path
  { r with
      fieldErrors := setStr r.fieldErrors path iss.message,
      errors := pushMsg r.errors path iss.message }

def validateSectionWithOrval (sectionName : String) (sectionData : List Json)
    (eventType : String) : ValidationResult :=
  match hybridEventTypeValidationConfig eventType with
  | none => { emptyResult with errors := [("eventType", ["Unknown event type"])] }
  | some config =>
      match hybridSectionIssues sectionName sectionData with
      | [] =>
          let isRequired := config.requiredSections.contains sectionName
          let minEntries := (lookupNat config.minimumEntries sectionName).getD 0
          if isRequired && decide (sectionData.length < minEntries) then
            { emptyResult with
                sectionErrors := [(sectionName,
                  ["At least " ++ toString minEntries ++ " " ++ sliceDropLast sectionName
                    ++ "(s) required"])] }
          else
            { emptyResult with
                isValid := true,
                canPublish := decide (minEntries ≤ sectionData.length) }
      | issues => issues.foldl (applySectionIssue sectionName) emptyResult

/-! ### Mock remote store (src/mocks/handlers.ts) -/

/-- `mockEventTypes.shoplifting` (handlers.ts lines 7-14). -/
def shopliftingConfig : EventTypeConfig :=
  ⟨"shoplifting", "Shoplifting Incident",
    [⟨"persons", "Persons Involved", true, 1⟩,
     ⟨"products", "Products Involved", true, 1⟩]⟩

/-- `mockEventTypes.accident` (handlers.ts lines 15-22). -/
def accidentConfig : EventTypeConfig :=
  ⟨"accident", "Accident Report",
    [⟨"persons", "Persons Involved", true, 1⟩,
     ⟨"vehicles", "Vehicles Involved", false, 0⟩]⟩

/-- `mockEventTypes.vandalism` (handlers.ts lines 23-30). -/
def vandalismConfig : EventTypeConfig :=
  ⟨"vandalism", "Vandalism Report",
    [⟨"persons", "Persons Involved", false, 0⟩,
     ⟨"evidence", "Evidence", true, 1⟩]⟩

/-- `mockEventTypes[eventType]`. -/
def mockEventTypes (t : String) : Option EventTypeConfig :=
  if t = "shoplifting" then some shopliftingConfig
  else if t = "accident" then some accidentConfig
  else if t = "vandalism" then some vandalismConfig
  else none

/-- Property write `target[key] = v`.  On a non-object target the strict-mode
JS code would raise a `TypeError`; no embedded flow reaches that case, and the
embedding leaves the target unchanged there. -/
def jsSetField (j : Json) (k : String) (v : Json) : Json :=
  match j with
  | .obj fs => .obj (setKey fs k v)
  | _ => j

/-- `applyUpdates` (handlers.ts lines 102-111): keys whose source value is a
plain object (non-null, non-array) are merged recursively — with a falsy
target slot replaced by `{}` first — and all other keys are assigned. -/
def applyFields (target : Json) : List (String × Json) → Json
  | [] => target
  | (k, v) :: rest =>
      match v with
      | .obj vf =>
          let base :=
            match target.getField k with
            | some c => if c.truthy then c else Json.obj []
            | none => Json.obj []
          applyFields (jsSetField target k (applyFields base vf)) rest
      | _ => applyFields (jsSetField target k v) rest

def applyUpdates (target : Json) : Json → Json
  | .obj src => applyFields target src
  | _ => target

/-- The `validation` summary computed by the mock server's `validateEvent`
(handlers.ts lines 167-192). -/
structure MockValidation where
  isValid : Bool
  canPublish : Bool
  errorCount : Nat
  deriving Repr, DecidableEq

/-- `!event.metadata?.<key>?.trim()`: missing/`null`/`undefined` chains to
`undefined` (falsy), a string is trimmed and tested; a non-string would raise
on `.trim()` in JS — no embedded flow stores one, and the embedding counts it
as an error. -/
def metaTrimEmpty (ev : Json) (key : String) : Bool :=
  match ev.getField "metadata" with
  | some m =>
      match m.getField key with
      | some (.str s) => jsTrim s = ""
      | some .null => true
      | some .undef => true
      | some _ => true
      | none => true
  | none => true

/-- `(event.sections?.[id] || []).length < min`. -/
def evSectionLenLt (ev : Json) (sid : String) (min : Nat) : Bool :=
  match ev.getField "sections" with
  | some sv => jsSectionLenLt sv sid min
  | none => 0 < min

/-- Mock-server `validateEvent` (handlers.ts lines 167-192). -/
def mockValidateEvent (ev : Json) : MockValidation :=
  let cfg :=
    match ev.getField "eventType" with
    | some (.str t) => mockEventTypes t
    | _ => none
  match cfg with
  | none => ⟨false, false, 1⟩
  | some c =>
      let errorCount : Nat :=
        (if metaTrimEmpty ev "title" then 1 else 0)
          + (if metaTrimEmpty ev "description" then 1 else 0)
          + c.sections.countP
              (fun sc => sc.required && evSectionLenLt ev sc.sectionId sc.minimumEntries)
      ⟨errorCount = 0, errorCount = 0, errorCount⟩

def mockValidationJson (v : MockValidation) : Json :=
  .obj [("isValid", .bool v.isValid), ("canPublish", .bool v.canPublish),
        ("errorCount", .num v.errorCount)]

/-- The in-memory `mockEvents` map, keyed by event id. -/
abbrev Store := List (String × Json)

def storeGet (st : Store) (id : String) : Option Json := lookupField st id

def storeSet (st : Store) (id : String) (v : Json) : Store := setKey st id v

/-- An HTTP response of the mock handlers. -/
inductive HttpResult where
  | ok (body : Json)
  | err (status : Nat) (message : String)
  deriving Repr

/-- `PATCH /events/:eventId` (handlers.ts lines 92-124): recursive merge of
the update payload, then the `validation` summary is recomputed and stored. -/
def patchHandler (st : Store) (id : String) (updates : Json) : Store × HttpResult :=
  match storeGet st id with
  | none => (st, .err 404 "Event not found")
  | some ev =>
      let ev1 := applyUpdates ev updates
      let ev2 := jsSetField ev1 "validation" (mockValidationJson (mockValidateEvent ev1))
      (storeSet st id ev2, .ok ev2)

/-- `POST /events/:eventId/publish` (handlers.ts lines 146-163): re-validates
against the current store state and flips `status` to `published` on success. -/
def publishHandler (st : Store) (id : String) : Store × HttpResult :=
  match storeGet st id with
  | none => (st, .err 404 "Event not found")
  | some ev =>
      let v := mockValidateEvent ev
      if ¬ v.canPublish then (st, .err 400 "Event validation failed")
      else
        let ev2 := jsSetField ev "status" (.str "published")
        (storeSet st id ev2, .ok ev2)

/-! ### Optimistic field synchronization (src/hooks/useAtomicField.ts) -/

/-- `setNestedValue(obj, path, value)` (useAtomicField.ts lines 113-127),
functionally: a slot that is missing or not of `typeof 'object'` is replaced by
`{}` before descending.  (In JS a `null` slot passes the `typeof` test and the
next step throws; no embedded call site has a `null` on its path, and the
embedding takes the fresh-object branch.) -/
def setNestedKeys (j : Json) : List String → Json → Json
  | [], _ => j
  | [k], v => jsSetField j k v
  | k :: k2 :: rest, v =>
      match j with
      | .obj fs =>
          let base :=
            match lookupField fs k with
            | some (.obj g) => Json.obj g
            | some (.arr a) => Json.arr a
            | _ => Json.obj []
          .obj (setKey fs k (setNestedKeys base (k2 :: rest) v))
      | _ => j

def setNestedValue (j : Json) (path : String) (v : Json) : Json :=
  setNestedKeys j (splitDot path) v

/-- Outcome of one fired debounced save: the query-cache value and the PATCH
payload dispatched, if any. -/
structure SaveOutcome where
  cache : Json
  request : Option Json
  deriving Repr

/-- The body of `debouncedSave` (useAtomicField.ts lines 73-96): bail out when
the value equals the hook's `initialValue`; otherwise build the single-field
nested payload, optimistically update the cache (`old` untouched when falsy)
and dispatch the mutation. -/
def debouncedSaveRun (initialValue : Json) (fieldPath : String) (value : Json)
    (cache : Json) : SaveOutcome :=
  if jeq value initialValue then ⟨cache, none⟩
  else
    let updateData := setNestedValue (Json.obj []) fieldPath value
    let cache1 := if cache.truthy then setNestedValue cache fieldPath value else cache
    ⟨cache1, some updateData⟩

/-- `{...old, ...variables.data}` — the shallow merge the mutation's `onMutate`
applies optimistically (useAtomicField.ts lines 39-42). -/
def jsShallowMerge (old data : Json) : Json :=
  match old, data with
  | .obj fs, .obj gs => .obj (gs.foldl (fun acc kv => setKey acc kv.1 kv.2) fs)
  | _, _ => old

/-- The mutation lifecycle of a write that fails (useAtomicField.ts
lines 31-63): `onMutate` snapshots the cache as `previousEvent` *at mutate
time* — i.e. after `debouncedSave` has already applied its own optimistic
nested update — applies the shallow-merge optimistic update, and `onError`
restores `previousEvent` when truthy. -/
def failedMutationRun (cacheAtMutate : Json) (updateData : Json) : Json :=
  let previousEvent := cacheAtMutate
  let cacheOptimistic :=
    if cacheAtMutate.truthy then jsShallowMerge cacheAtMutate updateData else cacheAtMutate
  if previousEvent.truthy then previousEvent else cacheOptimistic

/-- End-to-end cache evolution of a single failing field write, from the
pre-edit baseline cache: debounced save (guard + optimistic nested update +
dispatch), then the failing mutation's `onMutate`/`onError`. -/
def failedWritePipeline (initialValue : Json) (fieldPath : String) (newValue : Json)
    (cache0 : Json) : Json :=
  let s := debouncedSaveRun initialValue fieldPath newValue cache0
  match s.request with
  | none => s.cache
  | some upd => failedMutationRun s.cache upd

/-- The debounce semantics of `useDebouncedCallback` (500 ms default): each
call schedules a flush of its value at `t + window` and cancels the previously
scheduled flush.  Given the timestamped call list (times strictly increasing),
a call's flush survives iff no further call arrives before its deadline. -/
def debounceFlushes (window : Nat) : List (Nat × Json) → List Json
  | [] => []
  | [(_, v)] => [v]
  | (t1, v1) :: (t2, v2) :: rest =>
      (if t2 < t1 + window then [] else [v1]) ++ debounceFlushes window ((t2, v2) :: rest)

/-- The PATCH payloads dispatched for a timestamped sequence of `updateValue`
calls on one field: every surviving flush runs `debouncedSave`, whose guard
drops values equal to the baseline `initialValue`. -/
def issuedRequests (initialValue : Json) (fieldPath : String) (window : Nat)
    (calls : List (Nat × Json)) : List Json :=
  (debounceFlushes window calls).filterMap (fun v =>
    if jeq v initialValue then none else some (setNestedValue (Json.obj []) fieldPath v))

/-- The body of `debouncedSave` in `useAtomicPersonField.ts` (lines 54-73):
same baseline guard; the payload is `{ [fieldName]: value }` and no optimistic
cache update is performed. -/
def personSaveRequest (initialValue : Json) (fieldName : String) (value : Json) :
    Option Json :=
  if jeq value initialValue then none else some (.obj [(fieldName, value)])

/-- A call sequence lies within the quiescence window when every call arrives
before the previous call's flush deadline. -/
def withinWindow (window : Nat) : List (Nat × Json) → Bool
  | [] => true
  | [_] => true
  | (t1, _) :: (t2, v2) :: rest =>
      decide (t2 < t1 + window) && withinWindow window ((t2, v2) :: rest)

/-! ### Statement-level observers -/

/-- Read a nested path out of a value (observer used in theorem statements). -/
def getNested (j : Json) : List String → Option Json
  | [] => some j
  | k :: rest =>
      match j.getField k with
      | some v => getNested v rest
      | none => none

/-- The object carrying exactly one nested path: `{k1: {k2: ... {kn: v}}}`. -/
def nestedSingleton : List String → Json → Json
  | [], v => v
  | [k], v => .obj [(k, v)]
  | k :: k2 :: rest, v => .obj [(k, nestedSingleton (k2 :: rest) v)]

/-! ### Concrete fixtures used by witnesses and counterexamples -/

/-- The person `{name:"Jane", role:"witness", age:40}` from spec scenario B
(with the id every stored entity carries). -/
def janePerson : Json :=
  .obj [("id", .str "p1"), ("name", .str "Jane"), ("role", .str "witness"), ("age", .num 40)]

/-- A fully populated, structurally valid metadata object. -/
def metaOk : Json :=
  .obj [("title", .str "Mall incident"), ("description", .str "desc"),
        ("priority", .str "medium"), ("occurredAt", .str "2024-01-01T00:00:00Z")]

/-- A draft accident document with the given persons collection and an empty
vehicles collection. -/
def accidentEventWith (persons : List Json) : Json :=
  .obj [("id", .str "e1"), ("eventType", .str "accident"),
        ("organizationId", .str "org-1"), ("siteId", .str "site-1"),
        ("status", .str "draft"), ("metadata", metaOk),
        ("sections", .obj [("persons", .arr persons), ("vehicles", .arr [])])]

/-- A document whose type discriminant is not a recognized type. -/
def burglaryEvent : Json :=
  .obj [("id", .str "e2"), ("eventType", .str "burglary"), ("metadata", metaOk)]

/-- An accident document that is valid for every client-side schema but has an
empty (after trimming) description. -/
def descEmptyEvent : Json :=
  .obj [("id", .str "e3"), ("eventType", .str "accident"),
        ("organizationId", .str "org-1"), ("siteId", .str "site-1"),
        ("status", .str "draft"),
        ("metadata", .obj [("title", .str "T"), ("description", .str ""),
          ("priority", .str "medium"), ("occurredAt", .str "2024-01-01T00:00:00Z")]),
        ("sections", .obj [("persons", .arr [janePerson]), ("vehicles", .arr [])])]

/-- A published accident document. -/
def publishedAccidentEvent : Json :=
  jsSetField (accidentEventWith [janePerson]) "status" (.str "published")

/-- A cached document whose `metadata.title` baseline is `"old"`. -/
def baselineTitleCache : Json :=
  .obj [("id", .str "e1"), ("metadata", .obj [("title", .str "old"), ("priority", .str "low")])]

/-- The field list of `burglaryEvent`. -/
def burglaryFields : List (String × Json) :=
  [("id", .str "e2"), ("eventType", .str "burglary"), ("metadata", metaOk)]

/-- A sample stored vehicle entity. -/
def sampleVehicle : Json :=
  .obj [("id", .str "v1"), ("make", .str "Toyota"), ("model", .str "Corolla"),
        ("licensePlate", .str "ABC123")]

/-- A two-section `sections` field list: one person, one vehicle. -/
def twoSecFields : List (String × Json) :=
  [("persons", .arr [janePerson]), ("vehicles", .arr [sampleVehicle])]

/-- An accident document holding `twoSecFields`. -/
def twoSectionEvent : Json :=
  .obj [("id", .str "e9"), ("eventType", .str "accident"),
        ("organizationId", .str "org-1"), ("siteId", .str "site-1"),
        ("status", .str "draft"), ("metadata", metaOk),
        ("sections", .obj twoSecFields)]

/-- A patch payload that touches only `metadata.title`. -/
def titlePatch : Json := .obj [("metadata", .obj [("title", .str "Updated")])]

/-- The store after PATCHing `titlePatch` onto the published document. -/
def patchedPublishedStore : Store :=
  (patchHandler [("e1", publishedAccidentEvent)] "e1" titlePatch).1

/-- The published document as stored after that patch. -/
def patchedPublishedEvent : Json := (storeGet patchedPublishedStore "e1").getD .null

/-! ## Foundational lemmas -/

/-- Strong induction over `Json` (recursing through arrays and objects). -/
theorem Json.strongInduction (P : Json → Prop)
    (hnull : P .null) (hundef : P .undef)
    (hbool : ∀ b, P (.bool b)) (hnum : ∀ n, P (.num n)) (hstr : ∀ s, P (.str s))
    (harr : ∀ xs, (∀ x ∈ xs, P x) → P (.arr xs))
    (hobj : ∀ fs, (∀ kv ∈ fs, P kv.2) → P (.obj fs)) : ∀ j, P j
  | .null => hnull
  | .undef => hundef
  | .bool b => hbool b
  | .num n => hnum n
  | .str s => hstr s
  | .arr xs => harr xs (fun x hx =>
      Json.strongInduction P hnull hundef hbool hnum hstr harr hobj x)
  | .obj fs => hobj fs (fun kv hkv =>
      Json.strongInduction P hnull hundef hbool hnum hstr harr hobj kv.2)
termination_by j => sizeOf j
decreasing_by
  · have h1 := List.sizeOf_lt_of_mem hx
    have h2 : sizeOf xs < sizeOf (Json.arr xs) := by simp
    omega
  · have h1 : sizeOf kv < sizeOf fs := List.sizeOf_lt_of_mem hkv
    have h2 : sizeOf kv.2 < sizeOf kv := by
      obtain ⟨k, v⟩ := kv
      simp
    have h3 : sizeOf fs < sizeOf (Json.obj fs) := by simp
    omega

/-- `jeq` decides propositional equality. -/
theorem jeq_iff : ∀ a b : Json, jeq a b = true ↔ a = b := by
  intro a
  induction a using Json.strongInduction with
  | hnull => intro b; cases b <;> simp [jeq]
  | hundef => intro b; cases b <;> simp [jeq]
  | hbool x => intro b; cases b <;> simp [jeq]
  | hnum x => intro b; cases b <;> simp [jeq]
  | hstr x => intro b; cases b <;> simp [jeq]
  | harr xs ih =>
    intro b; cases b <;> simp [jeq]
    case arr ys =>
      induction xs generalizing ys with
      | nil => cases ys <;> simp [jeqList]
      | cons x xs ihx =>
        cases ys with
        | nil => simp [jeqList]
        | cons y ys =>
          simp only [jeqList, Bool.and_eq_true]
          rw [ih x (by simp)]
          constructor
          · rintro ⟨rfl, h2⟩
            have := (ihx (fun z hz => ih z (by simp [hz])) ys).mp h2
            simp [this]
          · rintro h
            injection h with h1 h2
            subst h1; subst h2
            exact ⟨rfl, (ihx (fun z hz => ih z (by simp [hz])) _).mpr rfl⟩
  | hobj fs ih =>
    intro b; cases b <;> simp [jeq]
    case obj gs =>
      induction fs generalizing gs with
      | nil => cases gs <;> simp [jeqFields]
      | cons kv fs ihf =>
        cases gs with
        | nil => obtain ⟨k, v⟩ := kv; simp [jeqFields]
        | cons lw gs =>
          obtain ⟨k, v⟩ := kv
          obtain ⟨l, w⟩ := lw
          simp only [jeqFields, Bool.and_eq_true, beq_iff_eq]
          rw [ih ⟨k, v⟩ (by simp) w]
          constructor
          · rintro ⟨⟨rfl, rfl⟩, h3⟩
            have := (ihf (fun z hz => ih z (by simp [hz]) ) gs).mp h3
            simp at this ⊢
            exact this
          · rintro h
            injection h with h1 h2
            injection h1 with hk hv
            subst hk; subst hv; subst h2
            exact ⟨⟨rfl, rfl⟩, (ihf (fun z hz => ih z (by simp [hz])) _).mpr rfl⟩

theorem jeq_self (a : Json) : jeq a a = true := (jeq_iff a a).mpr rfl

theorem jeq_eq_false {a b : Json} (h : a ≠ b) : jeq a b = false := by
  cases hj : jeq a b
  · rfl
  · exact absurd ((jeq_iff a b).mp hj) h

theorem lookupField_setKey (fs : List (String × Json)) (k k' : String) (v : Json) :
    lookupField (setKey fs k v) k' = if k = k' then some v else lookupField fs k' := by
  induction fs with
  | nil => simp [setKey, lookupField]
  | cons kv rest ih =>
    obtain ⟨kw, w⟩ := kv
    by_cases h : kw = k
    · subst h
      simp [setKey, lookupField]
      by_cases h2 : kw = k' <;> simp [h2]
    · simp only [setKey, if_neg h, lookupField]
      by_cases h2 : kw = k'
      · subst h2
        have : ¬ k = kw := fun hh => h hh.symm
        simp [lookupField, this]
      · simp [lookupField, h2, ih]

theorem getField_jsSetField_ne (j : Json) (k k' : String) (v : Json) (h : k ≠ k') :
    (jsSetField j k v).getField k' = j.getField k' := by
  cases j <;> simp [jsSetField, Json.getField, lookupField_setKey, h]

theorem getField_jsSetField_obj (fs : List (String × Json)) (k k' : String) (v : Json) :
    (jsSetField (.obj fs) k v).getField k' =
      if k = k' then some v else lookupField fs k' := by
  simp [jsSetField, Json.getField, lookupField_setKey]

theorem lookupField_eq_none_iff (fs : List (String × Json)) (k : String) :
    lookupField fs k = none ↔ ∀ kv ∈ fs, kv.1 ≠ k := by
  induction fs with
  | nil => simp [lookupField]
  | cons kv rest ih =>
    obtain ⟨kw, w⟩ := kv
    by_cases h : kw = k
    · subst h; simp [lookupField]
    · simp [lookupField, h, ih]

theorem applyFields_getField_ne (us : List (String × Json)) (target : Json) (k : String)
    (h : ∀ kv ∈ us, kv.1 ≠ k) :
    (applyFields target us).getField k = target.getField k := by
  induction us generalizing target with
  | nil => simp [applyFields]
  | cons kv rest ih =>
    obtain ⟨kw, v⟩ := kv
    have hkw : kw ≠ k := h (kw, v) (by simp)
    have hrest : ∀ kv ∈ rest, kv.1 ≠ k := fun kv hkv => h kv (by simp [hkv])
    cases v with
    | obj vf =>
      simp only [applyFields]
      rw [ih _ hrest, getField_jsSetField_ne _ _ _ _ hkw]
    | null => simp only [applyFields]; rw [ih _ hrest, getField_jsSetField_ne _ _ _ _ hkw]
    | undef => simp only [applyFields]; rw [ih _ hrest, getField_jsSetField_ne _ _ _ _ hkw]
    | bool b => simp only [applyFields]; rw [ih _ hrest, getField_jsSetField_ne _ _ _ _ hkw]
    | num n => simp only [applyFields]; rw [ih _ hrest, getField_jsSetField_ne _ _ _ _ hkw]
    | str s => simp only [applyFields]; rw [ih _ hrest, getField_jsSetField_ne _ _ _ _ hkw]
    | arr xs => simp only [applyFields]; rw [ih _ hrest, getField_jsSetField_ne _ _ _ _ hkw]

theorem setNestedKeys_emptyObj (ks : List String) (v : Json) (h : ks ≠ []) :
    setNestedKeys (.obj []) ks v = nestedSingleton ks v := by
  induction ks with
  | nil => exact absurd rfl h
  | cons k rest ih =>
    cases rest with
    | nil => simp [setNestedKeys, nestedSingleton, jsSetField, setKey]
    | cons k2 rest2 =>
      simp only [setNestedKeys, nestedSingleton, Json.getField, lookupField, setKey]
      rw [ih (by simp)]

theorem debounceFlushes_getLast (w : Nat) (calls : List (Nat × Json)) (l : Nat × Json)
    (hw : withinWindow w calls = true) (hl : calls.getLast? = some l) :
    debounceFlushes w calls = [l.2] := by
  induction calls with
  | nil => simp at hl
  | cons a rest ih =>
    cases rest with
    | nil =>
      obtain ⟨t, v⟩ := a
      simp [debounceFlushes]
      simp [List.getLast?] at hl
      simp [← hl]
    | cons b rest2 =>
      obtain ⟨t1, v1⟩ := a
      obtain ⟨t2, v2⟩ := b
      simp only [withinWindow, Bool.and_eq_true, decide_eq_true_eq] at hw
      have hl2 : ((t2, v2) :: rest2).getLast? = some l := by
        rw [← hl]
        exact (List.getLast?_cons_cons ..).symm
      simp only [debounceFlushes, if_pos hw.1, List.nil_append]
      exact ih hw.2 hl2

theorem storeGet_storeSet_self (st : Store) (id : String) (v : Json) :
    storeGet (storeSet st id v) id = some v := by
  simp [storeGet, storeSet, lookupField_setKey]

theorem splitDotAux_ne_nil (cs acc : List Char) : splitDotAux cs acc ≠ [] := by
  induction cs generalizing acc with
  | nil => simp [splitDotAux]
  | cons c rest ih =>
    simp only [splitDotAux]
    by_cases h : c = '.' <;> simp [h, ih]

theorem splitDot_ne_nil (s : String) : splitDot s ≠ [] := splitDotAux_ne_nil s.data []

/-! ## Claim theorems -/

/-- C1 (counterexample): for a concrete, structurally valid accident document
validated with an `Unresolved` (absent) rule set, `validateEventDynamic`
returns `isValid = true` and `canPublish = true` — not the pending result with
`isValid = false`, `canPublish = false` that the claim asserts. -/
theorem unresolved_ruleset_counterexample :
    validateEventDynamicE (accidentEventWith [janePerson]) none =
      Except.ok { emptyResult with isValid := true, canPublish := true } ∧
    ({ emptyResult with isValid := true, canPublish := true } : ValidationResult).isValid
      ≠ false := by
  exact ⟨rfl, by simp⟩

/-- C1 (amended): when the rule set is `Unresolved`, `DynamicValidator` skips
the cardinality pass entirely: every truthy document that passes the structural
schema yields `isValid = canPublish = true` with no error messages — the result
is indistinguishable from a fully valid one (so the UI does not disable publish
while the configuration loads); there is no distinct pending result. -/
theorem unresolved_ruleset_passes_structural_document
    (ev : Json) (h1 : ev.truthy = true) (h2 : generatedEventIssues ev = []) :
    validateEventDynamicE ev none =
      Except.ok { emptyResult with isValid := true, canPublish := true } := by
  unfold validateEventDynamicE
  rw [h1]
  simp only [Bool.true_eq_false, not_false_eq_true, reduceIte,
    generatedParseEvent, h2]
  cases hs : ev.getField "sections" <;> rfl

theorem unresolved_ruleset_passes_structural_document_witness :
    (accidentEventWith [janePerson]).truthy = true ∧
    generatedEventIssues (accidentEventWith [janePerson]) = [] ∧
    validateEventDynamicE (accidentEventWith [janePerson]) none =
      Except.ok { emptyResult with isValid := true, canPublish := true } :=
  ⟨rfl, rfl, unresolved_ruleset_passes_structural_document _ rfl rfl⟩

/-- C2: the failing-write pipeline evaluated at its concrete failing input.
The baseline cache holds `metadata.title = "old"`; the user edits to `"new"`
and the write fails.  `onError` restores the `onMutate` snapshot, but that
snapshot was taken *after* `debouncedSave` had already applied its optimistic
nested update, so the cache field ends at the new value `"new"` — not the
pre-edit baseline `"old"` that the claim (and the hook's own
"Snapshot previous value for rollback" comment) require. -/
theorem failed_write_rollback_keeps_optimistic_value :
    failedWritePipeline (.str "old") "metadata.title" (.str "new") baselineTitleCache =
      setNestedValue baselineTitleCache "metadata.title" (.str "new") ∧
    getNested
        (failedWritePipeline (.str "old") "metadata.title" (.str "new") baselineTitleCache)
        ["metadata", "title"] = some (.str "new") ∧
    Json.str "new" ≠ Json.str "old" := by
  refine ⟨rfl, rfl, by simp⟩

/-- C3 (counterexample): the two-call sequence that edits `"x"` at t=0 and
reverts to the baseline `"old"` at t=200 lies within the 500 ms quiescence
window, yet zero patch requests are issued — not exactly one as claimed (the
debounced save suppresses a final value equal to the baseline). -/
theorem within_window_sequence_zero_requests_counterexample :
    issuedRequests (.str "old") "metadata.title" 500 [(0, .str "x"), (200, .str "old")]
      = [] ∧
    ([] : List Json).length ≠ 1 :=
  ⟨rfl, by simp⟩

/-- C3 (amended): for any nonempty sequence of `updateValue` calls on one field
whose successive gaps stay below the quiescence window, the debouncer fires
exactly once, with the final value: when that value differs from the baseline,
exactly one patch request is issued, and its payload is exactly the single
nested path `fieldPath ↦ finalValue`; when it equals the baseline, no request
is issued at all. -/
theorem debounced_sequence_single_final_request
    (window : Nat) (calls : List (Nat × Json)) (baseline : Json) (fieldPath : String)
    (l : Nat × Json) (hw : withinWindow window calls = true)
    (hl : calls.getLast? = some l) :
    issuedRequests baseline fieldPath window calls =
      (if jeq l.2 baseline then [] else [setNestedValue (.obj []) fieldPath l.2]) ∧
    setNestedValue (.obj []) fieldPath l.2 = nestedSingleton (splitDot fieldPath) l.2 := by
  constructor
  · unfold issuedRequests
    rw [debounceFlushes_getLast _ _ _ hw hl]
    cases hj : jeq l.2 baseline <;> simp [hj]
  · exact setNestedKeys_emptyObj _ _ (splitDot_ne_nil fieldPath)

theorem debounced_sequence_single_final_request_witness :
    withinWindow 500 [((0 : Nat), Json.str "a"), (100, .str "ab"), (300, .str "abc")]
      = true ∧
    ([((0 : Nat), Json.str "a"), (100, .str "ab"), (300, .str "abc")]).getLast?
      = some (300, .str "abc") ∧
    issuedRequests (.str "") "metadata.title" 500
        [((0 : Nat), Json.str "a"), (100, .str "ab"), (300, .str "abc")] =
      (if jeq (Json.str "abc") (.str "") then []
       else [setNestedValue (.obj []) "metadata.title" (.str "abc")]) ∧
    setNestedValue (.obj []) "metadata.title" (.str "abc") =
      nestedSingleton (splitDot "metadata.title") (.str "abc") :=
  ⟨rfl, rfl,
    (debounced_sequence_single_final_request 500
      [((0 : Nat), Json.str "a"), (100, .str "ab"), (300, .str "abc")]
      (.str "") "metadata.title" (300, .str "abc") rfl rfl).1,
    (debounced_sequence_single_final_request 500
      [((0 : Nat), Json.str "a"), (100, .str "ab"), (300, .str "abc")]
      (.str "") "metadata.title" (300, .str "abc") rfl rfl).2⟩

/-- C4: when the value pending at timer expiry equals the field's baseline
`initialValue`, the debounced save returns before touching anything: the cache
is returned unchanged and no request is dispatched (`useAtomicField`), and the
person-field variant likewise dispatches nothing (`useAtomicPersonField`). -/
theorem baseline_value_suppresses_write
    (initialValue : Json) (fieldPath fieldName : String) (value cache : Json)
    (h : value = initialValue) :
    debouncedSaveRun initialValue fieldPath value cache = ⟨cache, none⟩ ∧
    personSaveRequest initialValue fieldName value = none := by
  subst h
  constructor <;> simp [debouncedSaveRun, personSaveRequest, jeq_self]

theorem baseline_value_suppresses_write_witness :
    (Json.str "old") = (Json.str "old") ∧
    debouncedSaveRun (.str "old") "metadata.title" (.str "old") baselineTitleCache
      = ⟨baselineTitleCache, none⟩ ∧
    personSaveRequest (.str "old") "name" (.str "old") = none :=
  ⟨rfl,
    (baseline_value_suppresses_write (.str "old") "metadata.title" "name"
      (.str "old") baselineTitleCache rfl).1,
    (baseline_value_suppresses_write (.str "old") "metadata.title" "name"
      (.str "old") baselineTitleCache rfl).2⟩

/-- C5 (counterexample): validating the accident document with an empty persons
collection yields the section message
"At least 1 persons involved is required" — built from the rule's
`displayName` lowercased — which is not the claimed message
"At least 1 person is required" with an optional suffix: truncated to the
claimed message's length, the computed message already disagrees, so no suffix
can reconcile them. -/
theorem accident_empty_persons_message_counterexample :
    validateEventDynamicE (accidentEventWith []) (some accidentConfig) =
      Except.ok { emptyResult with
        errors := [("sections.persons", ["At least 1 persons involved is required"])],
        sectionErrors := [("persons", ["At least 1 persons involved is required"])] } ∧
    "At least 1 persons involved is required".data.take
        "At least 1 person is required".data.length ≠
      "At least 1 person is required".data := by
  exact ⟨rfl, by decide⟩

/-- C5 (amended): for the accident document under the accident section rules,
an empty persons collection yields exactly the section error
"At least 1 persons involved is required" (the config `displayName` lowercased)
with `canPublish = false`; after adding Jane (`{name:"Jane", role:"witness",
age:40}`) the result is clean and `canPublish = true`. -/
theorem accident_persons_cardinality_scenario :
    validateEventDynamicE (accidentEventWith []) (some accidentConfig) =
      Except.ok { emptyResult with
        errors := [("sections.persons", ["At least 1 persons involved is required"])],
        sectionErrors := [("persons", ["At least 1 persons involved is required"])] } ∧
    validateEventDynamicE (accidentEventWith [janePerson]) (some accidentConfig) =
      Except.ok { emptyResult with isValid := true, canPublish := true } :=
  ⟨rfl, rfl⟩

/-- C6 (counterexample): the PATCH handler places no guard on the `status`
key: a patch whose payload is `{status: "draft"}` applied to the concrete
published document stores it back with `status = "draft"` — the
draft→published transition is not monotonic under `patch`. -/
theorem patch_reverts_published_status_counterexample :
    ((storeGet (patchHandler [("e1", publishedAccidentEvent)] "e1"
        (.obj [("status", .str "draft")])).1 "e1").bind
      (fun ev => ev.getField "status")) = some (.str "draft") ∧
    Json.str "draft" ≠ Json.str "published" :=
  ⟨rfl, by simp⟩

/-- C6 (amended): a published document keeps `status = "published"` under
`publish` (re-publication either fails with the store unchanged or re-writes
`published`), and under any `patch` whose payload has no top-level `status`
key; but `patch` does not guard the `status` field, so a payload that sets
`status` can write any value, including reverting `"published"` to
`"draft"`. -/
theorem status_monotonic_for_statusless_operations :
    (∀ (st : Store) (id : String) (ev ev' : Json),
      storeGet st id = some ev →
      ev.getField "status" = some (.str "published") →
      storeGet (publishHandler st id).1 id = some ev' →
      ev'.getField "status" = some (.str "published")) ∧
    (∀ (st : Store) (id : String) (us : List (String × Json)) (ev ev' : Json),
      storeGet st id = some ev →
      lookupField us "status" = none →
      storeGet (patchHandler st id (.obj us)).1 id = some ev' →
      ev'.getField "status" = ev.getField "status") := by
  constructor
  · intro st id ev ev' hget hpub hget'
    unfold publishHandler at hget'
    rw [hget] at hget'
    by_cases hcp : (mockValidateEvent ev).canPublish = true
    · simp only [hcp, not_true_eq_false, reduceIte, storeGet_storeSet_self,
        Option.some.injEq] at hget'
      subst hget'
      cases ev with
      | obj fs =>
        rw [getField_jsSetField_obj]
        simp
      | null => simp [Json.getField] at hpub
      | undef => simp [Json.getField] at hpub
      | bool b => simp [Json.getField] at hpub
      | num n => simp [Json.getField] at hpub
      | str s => simp [Json.getField] at hpub
      | arr xs => simp [Json.getField] at hpub
    · simp only [Bool.not_eq_true] at hcp
      simp only [hcp, Bool.false_eq_true, not_false_eq_true, reduceIte] at hget'
      rw [hget] at hget'
      cases hget'
      exact hpub
  · intro st id us ev ev' hget hnone hget'
    unfold patchHandler at hget'
    rw [hget] at hget'
    simp only [storeGet_storeSet_self, Option.some.injEq] at hget'
    subst hget'
    have hall : ∀ kv ∈ us, kv.1 ≠ "status" :=
      (lookupField_eq_none_iff us "status").mp hnone
    rw [getField_jsSetField_ne _ _ _ _ (by simp)]
    exact applyFields_getField_ne us ev "status" hall

theorem status_monotonic_for_statusless_operations_witness :
    storeGet [("e1", publishedAccidentEvent)] "e1" = some publishedAccidentEvent ∧
    publishedAccidentEvent.getField "status" = some (.str "published") ∧
    storeGet (publishHandler [("e1", publishedAccidentEvent)] "e1").1 "e1"
      = some publishedAccidentEvent ∧
    publishedAccidentEvent.getField "status" = some (.str "published") ∧
    storeGet patchedPublishedStore "e1" = some patchedPublishedEvent ∧
    patchedPublishedEvent.getField "status" = publishedAccidentEvent.getField "status" :=
  ⟨rfl, rfl, rfl, rfl, rfl,
    status_monotonic_for_statusless_operations.2
      [("e1", publishedAccidentEvent)] "e1"
      [("metadata", .obj [("title", .str "Updated")])]
      publishedAccidentEvent patchedPublishedEvent rfl rfl rfl⟩

/-- C7: a document whose `eventType` discriminant is a string other than
`shoplifting`/`accident`/`vandalism` gets exactly one top-level error, with
`isValid = false` and `canPublish = false`, from each embedded validator: the
discriminated-union `validateEvent` (src/main.tsx), the
`validateSectionWithOrval` config lookup, and `DynamicValidator.validateEvent`
(for any rule set, resolved or not). -/
theorem unrecognized_type_single_top_level_error
    (fs : List (String × Json)) (s name : String) (data : List Json)
    (cfg : Option EventTypeConfig)
    (hty : lookupField fs "eventType" = some (.str s))
    (h1 : s ≠ "shoplifting") (h2 : s ≠ "accident") (h3 : s ≠ "vandalism") :
    validateEventE (.obj fs) =
      Except.ok { emptyResult with
        errors := [("eventType", ["Invalid discriminator value"])],
        fieldErrors := [("eventType", "Invalid discriminator value")] } ∧
    validateSectionWithOrval name data s =
      { emptyResult with errors := [("eventType", ["Unknown event type"])] } ∧
    validateEventDynamicE (.obj fs) cfg =
      Except.ok { emptyResult with
        errors := [("eventType", ["Invalid discriminator value"])],
        fieldErrors := [("eventType", "Invalid discriminator value")] } := by
  refine ⟨?_, ?_, ?_⟩
  · have hiss : eventSchemaIssues (.obj fs) =
        [⟨["eventType"], "Invalid discriminator value"⟩] := by
      simp [eventSchemaIssues, hty, h1, h2, h3]
    unfold validateEventE
    simp only [Json.truthy, zodParseEvent, hiss]
    rfl
  · simp only [validateSectionWithOrval, hybridEventTypeValidationConfig, h1, h2, h3,
      reduceIte]
  · have hiss : generatedEventIssues (.obj fs) =
        [⟨["eventType"], "Invalid discriminator value"⟩] := by
      simp [generatedEventIssues, hty, h1, h2, h3]
    unfold validateEventDynamicE
    simp only [Json.truthy, generatedParseEvent, hiss]
    rfl

theorem unrecognized_type_single_top_level_error_witness :
    lookupField burglaryFields "eventType" = some (.str "burglary") ∧
    validateEventE (.obj burglaryFields) =
      Except.ok { emptyResult with
        errors := [("eventType", ["Invalid discriminator value"])],
        fieldErrors := [("eventType", "Invalid discriminator value")] } ∧
    validateSectionWithOrval "persons" [] "burglary" =
      { emptyResult with errors := [("eventType", ["Unknown event type"])] } ∧
    validateEventDynamicE (.obj burglaryFields) none =
      Except.ok { emptyResult with
        errors := [("eventType", ["Invalid discriminator value"])],
        fieldErrors := [("eventType", "Invalid discriminator value")] } :=
  ⟨rfl,
    (unrecognized_type_single_top_level_error burglaryFields "burglary" "persons" []
      none rfl (by decide) (by decide) (by decide)).1,
    (unrecognized_type_single_top_level_error burglaryFields "burglary" "persons" []
      none rfl (by decide) (by decide) (by decide)).2.1,
    (unrecognized_type_single_top_level_error burglaryFields "burglary" "persons" []
      none rfl (by decide) (by decide) (by decide)).2.2⟩

/-- C8: a PATCH on a known document whose `sections` key populates only
section S merges the sections mapping per sectionId: in the stored result,
every section T ≠ S still maps to exactly the value it had before the
patch. -/
theorem patch_single_section_preserves_siblings
    (st : Store) (id : String) (ev : Json) (secFlds : List (String × Json))
    (S T : String) (xs : List Json)
    (hget : storeGet st id = some ev)
    (hsec : ev.getField "sections" = some (.obj secFlds))
    (hne : T ≠ S) :
    ((storeGet (patchHandler st id (.obj [("sections", .obj [(S, .arr xs)])])).1 id).bind
        (fun e => e.getField "sections")).bind (fun sv => sv.getField T) =
      lookupField secFlds T := by
  cases ev with
  | null => simp [Json.getField] at hsec
  | undef => simp [Json.getField] at hsec
  | bool b => simp [Json.getField] at hsec
  | num n => simp [Json.getField] at hsec
  | str s2 => simp [Json.getField] at hsec
  | arr ys => simp [Json.getField] at hsec
  | obj fs =>
    have happ : applyFields (.obj fs) [("sections", .obj [(S, .arr xs)])] =
        jsSetField (.obj fs) "sections" (.obj (setKey secFlds S (.arr xs))) := by
      simp only [applyFields, hsec, Json.truthy, reduceIte, jsSetField]
    unfold patchHandler
    rw [hget]
    simp only [applyUpdates, happ, storeGet_storeSet_self, Option.bind]
    rw [getField_jsSetField_ne _ _ _ _ (by decide)]
    simp only [jsSetField, Json.getField, lookupField_setKey, reduceIte]
    rw [if_neg (fun h => hne h.symm)]

theorem patch_single_section_preserves_siblings_witness :
    storeGet [("e9", twoSectionEvent)] "e9" = some twoSectionEvent ∧
    twoSectionEvent.getField "sections" = some (.obj twoSecFields) ∧
    ((storeGet (patchHandler [("e9", twoSectionEvent)] "e9"
        (.obj [("sections", .obj [("persons", .arr [])])])).1 "e9").bind
        (fun e => e.getField "sections")).bind (fun sv => sv.getField "vehicles") =
      lookupField twoSecFields "vehicles" ∧
    lookupField twoSecFields "vehicles" = some (.arr [sampleVehicle]) :=
  ⟨rfl, rfl,
    patch_single_section_preserves_siblings [("e9", twoSectionEvent)] "e9"
      twoSectionEvent twoSecFields "persons" "vehicles" [] rfl rfl (by decide),
    rfl⟩

/-- C9: both validators are total on arbitrary input — `null`, `undefined`,
primitives, documents with missing metadata or sections, malformed entities:
every branch (the null guard and the catch-alls around the schema parse)
returns a `ValidationResult`; the `Except.error` outcome, which would model an
uncaught exception, is unreachable.  The embedding is a pure function of its
argument, so validation also never mutates its input. -/
theorem validators_never_throw (j : Json) (cfg : Option EventTypeConfig) :
    (∃ r, validateEventE j = Except.ok r) ∧
    (∃ r, validateEventDynamicE j cfg = Except.ok r) := by
  constructor
  · unfold validateEventE
    split
    · exact ⟨_, rfl⟩
    · split <;> exact ⟨_, rfl⟩
  · unfold validateEventDynamicE
    split
    · exact ⟨_, rfl⟩
    · split
      · exact ⟨_, rfl⟩
      · split
        · split <;> exact ⟨_, rfl⟩
        · exact ⟨_, rfl⟩

/-- C10: the mock store's publish succeeds exactly when the document's title
and description are non-empty after trimming and every required section of its
(recognized) type meets its `minimumEntries`; when it fails, the store — hence
the document's status and contents — is unchanged.  The client-side schema
marks `description` optional: the concrete `descEmptyEvent` (empty
description) passes the client `validateEvent` with `canPublish = true`, yet
the server publish rejects it with 400 and leaves the store unchanged, so the
server gate is strictly stricter than the client validator. -/
theorem publish_gate_requires_title_description_sections
    (st : Store) (id : String) (ev : Json) (t : String) (cfg : EventTypeConfig)
    (hget : storeGet st id = some ev)
    (hty : ev.getField "eventType" = some (.str t))
    (hcfg : mockEventTypes t = some cfg) :
    ((∃ body, (publishHandler st id).2 = .ok body) ↔
      (metaTrimEmpty ev "title" = false ∧ metaTrimEmpty ev "description" = false ∧
        ∀ sc ∈ cfg.sections, sc.required = true →
          evSectionLenLt ev sc.sectionId sc.minimumEntries = false)) ∧
    (∀ n m, (publishHandler st id).2 = .err n m → (publishHandler st id).1 = st) ∧
    validateEventE descEmptyEvent =
      Except.ok { emptyResult with isValid := true, canPublish := true } ∧
    (publishHandler [("e3", descEmptyEvent)] "e3").2 = .err 400 "Event validation failed" ∧
    (publishHandler [("e3", descEmptyEvent)] "e3").1 = [("e3", descEmptyEvent)] := by
  have hcanp : (mockValidateEvent ev).canPublish = true ↔
      (metaTrimEmpty ev "title" = false ∧ metaTrimEmpty ev "description" = false ∧
        ∀ sc ∈ cfg.sections, sc.required = true →
          evSectionLenLt ev sc.sectionId sc.minimumEntries = false) := by
    simp only [mockValidateEvent, hty, hcfg, decide_eq_true_eq]
    constructor
    · intro h
      by_cases ha : metaTrimEmpty ev "title" <;>
        by_cases hb : metaTrimEmpty ev "description" <;>
          simp [ha, hb] at h ⊢
      exact h
    · rintro ⟨ha, hb, hs⟩
      simp only [ha, hb, Bool.false_eq_true, reduceIte, Nat.zero_add]
      exact List.countP_eq_zero.mpr (fun sc hmem => by
        simp only [Bool.and_eq_true, not_and]
        intro hreq
        simp [hs sc hmem hreq])
  refine ⟨?_, ?_, rfl, rfl, rfl⟩
  · rw [← hcanp]
    unfold publishHandler
    rw [hget]
    cases hcp : (mockValidateEvent ev).canPublish <;> simp [hcp]
  · intro n m herr
    unfold publishHandler at herr ⊢
    rw [hget] at herr ⊢
    cases hcp : (mockValidateEvent ev).canPublish <;> simp [hcp] at herr ⊢

theorem publish_gate_requires_title_description_sections_witness :
    validateEventE descEmptyEvent =
      Except.ok { emptyResult with isValid := true, canPublish := true } ∧
    (publishHandler [("e3", descEmptyEvent)] "e3").2 = .err 400 "Event validation failed" ∧
    (publishHandler [("e3", descEmptyEvent)] "e3").1 = [("e3", descEmptyEvent)] :=
  ⟨(publish_gate_requires_title_description_sections [("e3", descEmptyEvent)] "e3"
      descEmptyEvent "accident" accidentConfig rfl rfl rfl).2.2.1,
   (publish_gate_requires_title_description_sections [("e3", descEmptyEvent)] "e3"
      descEmptyEvent "accident" accidentConfig rfl rfl rfl).2.2.2.1,
   (publish_gate_requires_title_description_sections [("e3", descEmptyEvent)] "e3"
      descEmptyEvent "accident" accidentConfig rfl rfl rfl).2.2.2.2⟩

end EventForm
